import Mathlib

/-!
Shallow embedding of `TM1py/Services/SubsetService.py` (class `SubsetService`).

HTTP transport is modelled as a pure function `Request → Response`; each
service method is a Lean function that returns the ordered list of requests
it issues (its trace) together with its result.  A Python exception on a
path that the claims exercise (`UnboundLocalError`, a failed
deserialization, an `IndexError`) is modelled by `Option`: `none` means the
call raised instead of returning.
-/

namespace SubsetService

/-- HTTP verbs used by the service. -/
inductive Verb
  | GET
  | POST
  | PATCH
  | DELETE
deriving DecidableEq, Repr

/-- Modelled from the spec: the Subset domain object (class `TM1py.Objects.Subset`,
a collaborator whose code is not part of this module).  Identity fields, the
static/dynamic kind flag, the explicit element list (static) and the MDX
expression (dynamic).  `hierarchy_name_opt` keeps the raw constructor
argument; the accessor below applies the default. -/
structure Subset where
  name : String
  dimension_name : String
  hierarchy_name_opt : Option String
  is_static : Bool
  elements : List String
  expression : String
deriving DecidableEq, Repr

/-- Modelled from the spec: "hierarchy defaults to dimension name when absent"
(spec section 3); a Python `None` or empty string is absent. -/
def Subset.hierarchy_name (s : Subset) : String :=
  match s.hierarchy_name_opt with
  | none => s.dimension_name
  | some h => if h = "" then s.dimension_name else h

/-- Modelled from the spec: the canonical wire representation of a Subset
(`subset.body`), "the serialized form used for create/update payloads"
(spec section 3): a static subset carries its explicitly enumerated element
list, a dynamic one its MDX expression. -/
structure SubsetBody where
  name : String
  elements : List String
  expression : Option String
deriving DecidableEq, Repr

/-- Modelled from the spec: serialization of a Subset into its wire body. -/
def Subset.body (s : Subset) : SubsetBody :=
  if s.is_static then ⟨s.name, s.elements, none⟩
  else ⟨s.name, [], some s.expression⟩

/-- Request payloads: no body, a subset body, or the fixed `tm1.SaveAs`
payload `{Name, MakePrivate, MakeStatic}` of `make_static`. -/
inductive Payload
  | empty
  | subsetBody (b : SubsetBody)
  | saveAs (name : String) (makePrivate : Bool) (makeStatic : Bool)
deriving DecidableEq, Repr

/-- An HTTP request: verb, url, payload. -/
structure Request where
  verb : Verb
  url : String
  data : Payload
deriving DecidableEq, Repr

/-- Modelled from the spec: the transport's response object, "a response
object with a status code and a body" (spec section 1).  The body is kept in
the two deserialized shapes this module consumes: `json` is the Subset that
`Subset.from_dict(response.json())` would produce for a `get` response
(`none` when the body does not deserialize), and `json_names` is the list of
`Name` fields of `response.json()['value']` consumed by `get_all_names`. -/
structure Response where
  status_code : Nat
  json : Option Subset
  json_names : List String
deriving DecidableEq, Repr

/-- A transport is a pure map from requests to responses. -/
def Transport : Type := Request → Response

/-- Modelled from the spec: `format_url` escaping, "each identifier
individually escaped for safe embedding in a single-quoted path segment"
(spec section 4.1): every single quote in an identifier is doubled. -/
def escapeArg (s : String) : String :=
  ⟨s.data.foldr (fun c acc => if c = '\'' then '\'' :: '\'' :: acc else c :: acc) []⟩

/-- Python `if not hierarchy_name: hierarchy_name = dimension_name`
(lines 51-52, 69, 106, 143, 161, 170): `None` and the empty string are
falsy, so both default to the dimension name. -/
def resolveHierarchy (dimension_name : String) (hierarchy_name : Option String) : String :=
  match hierarchy_name with
  | none => dimension_name
  | some h => if h = "" then dimension_name else h

/-- URL of `create` (lines 31-36): collection URL, with the collection
selected by the `private` flag. -/
def create_url (dimension_name hierarchy_name : String) (private_ : Bool) : String :=
  "/api/v1/Dimensions('" ++ escapeArg dimension_name ++ "')/Hierarchies('"
    ++ escapeArg hierarchy_name ++ "')/"
    ++ escapeArg (if private_ then "PrivateSubsets" else "Subsets")

/-- URL of `get` (lines 53-56): single-resource URL with the expansion and
field selection of the source. -/
def get_url (dimension_name hierarchy_name : String) (private_ : Bool)
    (subset_name : String) : String :=
  "/api/v1/Dimensions('" ++ escapeArg dimension_name ++ "')/Hierarchies('"
    ++ escapeArg hierarchy_name ++ "')/"
    ++ escapeArg (if private_ then "PrivateSubsets" else "Subsets")
    ++ "('" ++ escapeArg subset_name
    ++ "')?$expand=Hierarchy($select=Dimension,Name),Elements($select=Name)&$select=*,Alias"

/-- URL of `get_all_names` (lines 71-74). -/
def get_all_names_url (dimension_name hierarchy_name : String) (private_ : Bool) : String :=
  "/api/v1/Dimensions('" ++ escapeArg dimension_name ++ "')/Hierarchies('"
    ++ escapeArg hierarchy_name ++ "')/"
    ++ escapeArg (if private_ then "PrivateSubsets" else "Subsets")
    ++ "?$select=Name"

/-- URL of the dynamic branch of `update` (lines 89-92). -/
def update_url (dimension_name hierarchy_name : String) (private_ : Bool)
    (subset_name : String) : String :=
  "/api/v1/Dimensions('" ++ escapeArg dimension_name ++ "')/Hierarchies('"
    ++ escapeArg hierarchy_name ++ "')/"
    ++ escapeArg (if private_ then "PrivateSubsets" else "Subsets")
    ++ "('" ++ escapeArg subset_name ++ "')"

/-- URL of `make_static` (lines 111-113). -/
def make_static_url (dimension_name hierarchy_name : String) (private_ : Bool)
    (subset_name : String) : String :=
  "/api/v1/Dimensions('" ++ escapeArg dimension_name ++ "')/Hierarchies('"
    ++ escapeArg hierarchy_name ++ "')/"
    ++ escapeArg (if private_ then "PrivateSubsets" else "Subsets")
    ++ "('" ++ escapeArg subset_name ++ "')/tm1.SaveAs"

/-- URL of `delete` (lines 144-147). -/
def delete_url (dimension_name hierarchy_name : String) (private_ : Bool)
    (subset_name : String) : String :=
  "/api/v1/Dimensions('" ++ escapeArg dimension_name ++ "')/Hierarchies('"
    ++ escapeArg hierarchy_name ++ "')/"
    ++ escapeArg (if private_ then "PrivateSubsets" else "Subsets")
    ++ "('" ++ escapeArg subset_name ++ "')"

/-- URL of `exists` (lines 162-165). -/
def exists_url (dimension_name hierarchy_name : String) (private_ : Bool)
    (subset_name : String) : String :=
  "/api/v1/Dimensions('" ++ escapeArg dimension_name ++ "')/Hierarchies('"
    ++ escapeArg hierarchy_name ++ "')/"
    ++ escapeArg (if private_ then "PrivateSubsets" else "Subsets")
    ++ "('" ++ escapeArg subset_name ++ "')"

/-- URL of the per-element DELETE inside
`delete_elements_from_static_subset` (lines 171-175). -/
def element_delete_url (dimension_name hierarchy_name : String) (private_ : Bool)
    (subset_name element_name : String) : String :=
  "/api/v1/Dimensions('" ++ escapeArg dimension_name ++ "')/Hierarchies('"
    ++ escapeArg hierarchy_name ++ "')/"
    ++ escapeArg (if private_ then "PrivateSubsets" else "Subsets")
    ++ "('" ++ escapeArg subset_name ++ "')/Elements('"
    ++ escapeArg element_name ++ "')"

/-- URL of the final PATCH of `update_static_subset` (lines 225-228). -/
def update_static_patch_url (dimension_name hierarchy_name : String) (private_ : Bool)
    (subset_name : String) : String :=
  "/api/v1/Dimensions('" ++ escapeArg dimension_name ++ "')/Hierarchies('"
    ++ escapeArg hierarchy_name ++ "')/"
    ++ escapeArg (if private_ then "PrivateSubsets" else "Subsets")
    ++ "('" ++ escapeArg subset_name ++ "')"

/-- Method `create` (lines 22-38): POST `subset.body` to the collection URL
and return the raw response.  The hierarchy name comes from the Subset
object. -/
def create (rest : Transport) (subset : Subset) (private_ : Bool) :
    List Request × Response :=
  let req : Request :=
    ⟨Verb.POST, create_url subset.dimension_name subset.hierarchy_name private_,
      Payload.subsetBody subset.body⟩
  ([req], rest req)

/-- The GET request built by `get` (lines 51-57), after the hierarchy
default is resolved. -/
def getRequest (subset_name dimension_name : String) (hierarchy_name : Option String)
    (private_ : Bool) : Request :=
  ⟨Verb.GET,
    get_url dimension_name (resolveHierarchy dimension_name hierarchy_name) private_ subset_name,
    Payload.empty⟩

/-- Method `get` (lines 40-58): resolve the hierarchy default, GET the
single-resource URL, deserialize the body via `Subset.from_dict`
(a failing deserialization raises, modelled by `none`). -/
def get (rest : Transport) (subset_name dimension_name : String)
    (hierarchy_name : Option String) (private_ : Bool) :
    List Request × Option Subset :=
  let req := getRequest subset_name dimension_name hierarchy_name private_
  ([req], (rest req).json)

/-- Method `get_all_names` (lines 60-77): GET the collection URL with a
name-only selection and return the `Name` of each entry. -/
def get_all_names (rest : Transport) (dimension_name : String)
    (hierarchy_name : Option String) (private_ : Bool) :
    List Request × List String :=
  let h := resolveHierarchy dimension_name hierarchy_name
  let req : Request := ⟨Verb.GET, get_all_names_url dimension_name h private_, Payload.empty⟩
  ([req], (rest req).json_names)

/-- Method `make_static` (lines 95-114): POST the fixed
`{Name, MakePrivate, MakeStatic: true}` payload to the `tm1.SaveAs` action
endpoint. -/
def make_static (rest : Transport) (subset_name dimension_name : String)
    (hierarchy_name : Option String) (private_ : Bool) :
    List Request × Response :=
  let h := resolveHierarchy dimension_name hierarchy_name
  let req : Request :=
    ⟨Verb.POST, make_static_url dimension_name h private_ subset_name,
      Payload.saveAs subset_name private_ true⟩
  ([req], rest req)

/-- Method `delete` (lines 133-149): DELETE the single-resource URL. -/
def delete (rest : Transport) (subset_name dimension_name : String)
    (hierarchy_name : Option String) (private_ : Bool) :
    List Request × Response :=
  let h := resolveHierarchy dimension_name hierarchy_name
  let req : Request := ⟨Verb.DELETE, delete_url dimension_name h private_ subset_name, Payload.empty⟩
  ([req], rest req)

/-- Modelled from the spec: the shared existence-probe helper `_exists` of
the base service (class `ObjectService`, not part of this module): it
"returns true/false based on success vs NotFound, propagating any other
failure" (spec section 4.8).  A propagated failure is `none`. -/
def existsHelper (rest : Transport) (url : String) : Option Bool :=
  let resp := rest ⟨Verb.GET, url, Payload.empty⟩
  if 200 ≤ resp.status_code ∧ resp.status_code < 300 then some true
  else if resp.status_code = 404 then some false
  else none

/-- Method `exists` (lines 151-166, named `exists_` because `exists` is a
Lean token): resolve the hierarchy default and probe the single-resource
URL via the shared helper. -/
def exists_ (rest : Transport) (subset_name dimension_name : String)
    (hierarchy_name : Option String) (private_ : Bool) :
    List Request × Option Bool :=
  let h := resolveHierarchy dimension_name hierarchy_name
  let url := exists_url dimension_name h private_ subset_name
  ([⟨Verb.GET, url, Payload.empty⟩], existsHelper rest url)

/-- The DELETE request for one element of a static subset, as built inside
the loop of `delete_elements_from_static_subset` (lines 172-177). -/
def elementDeleteRequest (dimension_name hierarchy_name : String) (private_ : Bool)
    (subset_name element_name : String) : Request :=
  ⟨Verb.DELETE,
    element_delete_url dimension_name hierarchy_name private_ subset_name element_name,
    Payload.empty⟩

/-- Loop body of `delete_elements_from_static_subset` (lines 172-179): one
DELETE per element, returning the response as soon as its status is not
204, else the last response after the list is exhausted.  `acc` is the
current value of the Python local `response`: `none` while it is unbound,
so a run over an empty list returns `none` — the `UnboundLocalError` of
line 179. -/
def deleteLoop (rest : Transport) (dimension_name hierarchy_name : String)
    (private_ : Bool) (subset_name : String) (acc : Option Response) :
    List String → List Request × Option Response
  | [] => ([], acc)
  | e :: es =>
    let req := elementDeleteRequest dimension_name hierarchy_name private_ subset_name e
    let resp := rest req
    if resp.status_code ≠ 204 then ([req], some resp)
    else
      let r := deleteLoop rest dimension_name hierarchy_name private_ subset_name (some resp) es
      (req :: r.1, r.2)

/-- Method `delete_elements_from_static_subset` (lines 168-179): resolve the
hierarchy default, then run the sequential per-element DELETE loop with the
`response` local initially unbound. -/
def delete_elements_from_static_subset (rest : Transport) (elements : List String)
    (dimension_name : String) (hierarchy_name : Option String) (subset_name : String)
    (private_ : Bool) : List Request × Option Response :=
  let h := resolveHierarchy dimension_name hierarchy_name
  deleteLoop rest dimension_name h private_ subset_name none elements

/-- The in-place removal loop of `update_static_subset` (lines 212-214):
`for element in subset.elements: if element in original: subset.elements.remove(element)`.
Python iterates by an internal index that advances every step even when the
current element was just removed, so the element sliding into the freed
slot is skipped; `remove` deletes the first occurrence (`List.erase`). -/
def removeMatchedGo (original : List String) (fuel : Nat) (elements : List String)
    (i : Nat) : List String :=
  match fuel with
  | 0 => elements
  | fuel + 1 =>
    if i < elements.length then
      let e := elements.getD i ""
      if e ∈ original then removeMatchedGo original fuel (elements.erase e) (i + 1)
      else removeMatchedGo original fuel elements (i + 1)
    else elements

/-- The loop of lines 212-214 run to completion from index 0.  A fuel of
`elements.length` is exact: each iteration advances `i` by one and never
lengthens the list, so when the fuel runs out `i` has reached the initial
length, which is at least the current length, and the loop guard fails
anyway (`removeMatchedGo_fuel_irrelevant` below proves the exhausted and
guarded exits agree). -/
def removeMatchedLoop (original : List String) (elements : List String) : List String :=
  removeMatchedGo original elements.length elements 0

/-- The append loop of `update_static_subset` (lines 216-219): collect, in
the order of the original subset's element list, every original element not
contained in the (already mutated) caller list. -/
def elements_to_be_deleted (originalElements mutatedElements : List String) : List String :=
  originalElements.filter (fun e => decide (e ∉ mutatedElements))

/-- Result of `update_static_subset` and `update`: the ordered request
trace, the returned response (`none` when the call raised), and the final
state of the caller-supplied Subset object (its `elements` list is mutated
in place by lines 212-214). -/
structure StaticUpdateResult where
  requests : List Request
  response : Option Response
  subset : Subset
deriving DecidableEq, Repr

/-- Method `update_static_subset` (lines 208-229): fetch the current
server-side subset, remove the already-present elements from the caller's
list in place, collect the original's elements missing from the (mutated)
list, DELETE them one by one, and on an all-204 delete phase PATCH
`subset.body`.  `none` models a raised exception: a `get` whose body does
not deserialize, or the unbound `response` of an empty delete list. -/
def update_static_subset (rest : Transport) (subset : Subset) (private_ : Bool) :
    Option StaticUpdateResult :=
  let getPair := get rest subset.name subset.dimension_name
      (some subset.hierarchy_name) private_
  match getPair.2 with
  | none => none
  | some original_subset =>
    let newElems := removeMatchedLoop original_subset.elements subset.elements
    let subset1 : Subset := { subset with elements := newElems }
    let toDelete := elements_to_be_deleted original_subset.elements newElems
    let delPair := delete_elements_from_static_subset rest toDelete
        subset1.dimension_name (some subset1.hierarchy_name) subset1.name private_
    match delPair.2 with
    | none => some ⟨getPair.1 ++ delPair.1, none, subset1⟩
    | some response =>
      if response.status_code ≠ 204 then
        some ⟨getPair.1 ++ delPair.1, some response, subset1⟩
      else
        let patchReq : Request :=
          ⟨Verb.PATCH,
            update_static_patch_url subset1.dimension_name subset1.hierarchy_name
              private_ subset1.name,
            Payload.subsetBody subset1.body⟩
        some ⟨getPair.1 ++ delPair.1 ++ [patchReq], some (rest patchReq), subset1⟩

/-- Method `update` (lines 79-93): a static subset is delegated wholesale to
`update_static_subset`; a dynamic one gets a single direct PATCH of
`subset.body` to the single-resource URL. -/
def update (rest : Transport) (subset : Subset) (private_ : Bool) :
    Option StaticUpdateResult :=
  if subset.is_static then update_static_subset rest subset private_
  else
    let req : Request :=
      ⟨Verb.PATCH,
        update_url subset.dimension_name subset.hierarchy_name private_ subset.name,
        Payload.subsetBody subset.body⟩
    some ⟨[req], some (rest req), subset⟩

/-- Method `update_or_create` (lines 116-131): probe existence of the
subset's (name, dimension, hierarchy, private) key, then delegate to
`update` or `create`. -/
def update_or_create (rest : Transport) (subset : Subset) (private_ : Bool) :
    Option StaticUpdateResult :=
  let probe := exists_ rest subset.name subset.dimension_name
      (some subset.hierarchy_name) private_
  match probe.2 with
  | none => none
  | some true =>
    (update rest subset private_).map
      (fun r => ⟨probe.1 ++ r.requests, r.response, r.subset⟩)
  | some false =>
    let c := create rest subset private_
    some ⟨probe.1 ++ c.1, some c.2, subset⟩

/-- One member of a tuple returned by the MDX set resolver, carrying the
requested `Name` member property. -/
structure Member where
  name : String
deriving DecidableEq, Repr, Inhabited

/-- Method `get_element_names` (lines 182-206): fetch the subset; a static
one yields its `elements` directly, a dynamic one is resolved by evaluating
its `expression` through the external MDX resolver (`ElementService
.execute_set_mdx`, a collaborator passed here as the function `resolver`),
taking `entry[0]["Name"]` of each returned tuple (an empty tuple raises,
modelled by `none`). -/
def get_element_names (rest : Transport) (resolver : String → List (List Member))
    (dimension_name hierarchy_name subset_name : String) (private_ : Bool) :
    Option (List String) :=
  match (get rest subset_name dimension_name (some hierarchy_name) private_).2 with
  | none => none
  | some subset =>
    if subset.is_static then some subset.elements
    else (resolver subset.expression).mapM (fun entry => entry.head?.map Member.name)

/-! Concrete subsets and transports used by the closed theorems and the
witnesses below. -/

/-- A static subset as the server currently stores it: elements A, B, C. -/
def origABC : Subset := ⟨"S", "D", some "D", true, ["A", "B", "C"], ""⟩

/-- The caller's desired static subset: elements B, C, D. -/
def desiredBCD : Subset := ⟨"S", "D", some "D", true, ["B", "C", "D"], ""⟩

/-- A transport whose GET returns `origABC` and whose every DELETE succeeds
with 204. -/
def restABC : Transport := fun req =>
  match req.verb with
  | Verb.GET => ⟨200, some origABC, []⟩
  | Verb.DELETE => ⟨204, none, []⟩
  | _ => ⟨200, none, []⟩

/-- A server-side subset with no elements. -/
def origEmpty : Subset := ⟨"S", "D", some "D", true, [], ""⟩

/-- The caller's desired static subset: the single new element D. -/
def desiredD : Subset := ⟨"S", "D", some "D", true, ["D"], ""⟩

/-- A transport whose GET returns `origEmpty` and whose every DELETE
succeeds with 204. -/
def restEmpty : Transport := fun req =>
  match req.verb with
  | Verb.GET => ⟨200, some origEmpty, []⟩
  | Verb.DELETE => ⟨204, none, []⟩
  | _ => ⟨200, none, []⟩

/-- A transport that answers every request with a plain 200. -/
def restOk : Transport := fun _ => ⟨200, none, []⟩

/-- A transport that answers every request with 404 and no body. -/
def rest404 : Transport := fun _ => ⟨404, none, []⟩

/-- A transport whose GET returns `origABC`, whose DELETE of element A
fails with 500, and whose other DELETEs succeed with 204. -/
def restFailA : Transport := fun req =>
  if req.url = element_delete_url "D" "D" false "S" "A" then ⟨500, none, []⟩
  else match req.verb with
  | Verb.GET => ⟨200, some origABC, []⟩
  | Verb.DELETE => ⟨204, none, []⟩
  | _ => ⟨200, none, []⟩

/-- A transport whose GET returns `origABC`, whose DELETE of element B
returns 200 (a non-204 success), and whose other DELETEs succeed with
204. -/
def restFailB : Transport := fun req =>
  if req.url = element_delete_url "D" "D" false "S" "B" then ⟨200, none, []⟩
  else match req.verb with
  | Verb.GET => ⟨200, some origABC, []⟩
  | Verb.DELETE => ⟨204, none, []⟩
  | _ => ⟨200, none, []⟩

/-- A dynamic subset with an MDX expression. -/
def dynSubset : Subset := ⟨"S", "D", some "D", false, [], "mdx-set"⟩

/-- A transport whose GET returns `dynSubset`. -/
def restDyn : Transport := fun req =>
  match req.verb with
  | Verb.GET => ⟨200, some dynSubset, []⟩
  | _ => ⟨200, none, []⟩

/-- A resolver returning two singleton tuples, members E1 and E2. -/
def resolverTwo : String → List (List Member) := fun _ => [[⟨"E1"⟩], [⟨"E2"⟩]]

/-- A subset constructed without a hierarchy name. -/
def sNoHier : Subset := ⟨"S", "D", none, false, [], "mdx-set"⟩

/-- The delete phase of `update_static_subset` (lines 216-222), as a
function of the caller's subset and the fetched original: the per-element
DELETE helper applied to `elements_to_be_deleted` of the original's
elements and the mutated caller list. -/
def staticDelPair (rest : Transport) (s orig : Subset) (private_ : Bool) :
    List Request × Option Response :=
  delete_elements_from_static_subset rest
    (elements_to_be_deleted orig.elements (removeMatchedLoop orig.elements s.elements))
    s.dimension_name (some s.hierarchy_name) s.name private_

/-! Helper lemmas. -/

/-- Resolving the hierarchy of a Subset's own (already defaulted) hierarchy
name is the identity: the getter only returns the empty string when the
dimension name is itself empty. -/
theorem resolveHierarchy_getter (s : Subset) :
    resolveHierarchy s.dimension_name (some s.hierarchy_name) = s.hierarchy_name := by
  unfold Subset.hierarchy_name
  cases ho : s.hierarchy_name_opt with
  | none => by_cases hd : s.dimension_name = "" <;> simp [resolveHierarchy, hd]
  | some h =>
    by_cases hh : h = ""
    · by_cases hd : s.dimension_name = "" <;> simp [resolveHierarchy, hh, hd]
    · simp [resolveHierarchy, hh]

/-- Fuel is irrelevant once it covers the distance from the index to the
end of the list, so the exact fuel of `removeMatchedLoop` computes the
limit of the Python loop of lines 212-214. -/
theorem removeMatchedGo_fuel_irrelevant (original : List String) :
    ∀ (fuel fuel' : Nat) (elements : List String) (i : Nat),
      elements.length ≤ i + fuel → elements.length ≤ i + fuel' →
      removeMatchedGo original fuel elements i = removeMatchedGo original fuel' elements i := by
  intro fuel
  induction fuel with
  | zero =>
    intro fuel' elements i h1 _
    cases fuel' with
    | zero => rfl
    | succ n =>
      simp only [removeMatchedGo]
      have hn : ¬ i < elements.length := by omega
      simp [hn]
  | succ n ih =>
    intro fuel' elements i h1 h2
    cases fuel' with
    | zero =>
      have hn : ¬ i < elements.length := by omega
      simp [removeMatchedGo, hn]
    | succ m =>
      simp only [removeMatchedGo]
      by_cases hlt : i < elements.length
      · simp only [hlt, if_true]
        by_cases hmem : elements.getD i "" ∈ original
        · simp only [hmem, if_true]
          have hle : (elements.erase (elements.getD i "")).length ≤ elements.length :=
            (List.erase_sublist _ _).length_le
          exact ih m _ _ (by omega) (by omega)
        · simp only [hmem, if_false]
          exact ih m _ _ (by omega) (by omega)
      · simp [hlt]

/-- The removal loop never lengthens the list. -/
theorem removeMatchedGo_length_le (original : List String) :
    ∀ (fuel : Nat) (elements : List String) (i : Nat),
      (removeMatchedGo original fuel elements i).length ≤ elements.length := by
  intro fuel
  induction fuel with
  | zero => intro elements i; simp [removeMatchedGo]
  | succ n ih =>
    intro elements i
    simp only [removeMatchedGo]
    by_cases hlt : i < elements.length
    · simp only [hlt, if_true]
      by_cases hmem : elements.getD i "" ∈ original
      · simp only [hmem, if_true]
        exact le_trans (ih _ _) (List.erase_sublist _ _).length_le
      · simp only [hmem, if_false]
        exact ih _ _
    · simp [hlt]

/-- With enough fuel, the removal loop strictly shortens the list as soon
as some not-yet-visited element is matched by `original`. -/
theorem removeMatchedGo_length_lt (original : List String) :
    ∀ (fuel : Nat) (elements : List String) (i : Nat),
      elements.length ≤ i + fuel →
      (∃ x ∈ elements.drop i, x ∈ original) →
      (removeMatchedGo original fuel elements i).length < elements.length := by
  intro fuel
  induction fuel with
  | zero =>
    intro elements i hfe hx
    obtain ⟨x, hxd, _⟩ := hx
    rw [List.drop_eq_nil_of_le (by omega)] at hxd
    exact absurd hxd (List.not_mem_nil x)
  | succ n ih =>
    intro elements i hfe hx
    simp only [removeMatchedGo]
    by_cases hlt : i < elements.length
    · simp only [hlt, if_true]
      by_cases hmem : elements.getD i "" ∈ original
      · simp only [hmem, if_true]
        have h1 : (removeMatchedGo original n (elements.erase (elements.getD i "")) (i + 1)).length
            ≤ (elements.erase (elements.getD i "")).length := removeMatchedGo_length_le _ _ _ _
        have h2 : (elements.erase (elements.getD i "")).length = elements.length - 1 :=
          List.length_erase_of_mem
            (by rw [List.getD_eq_getElem _ _ hlt]; exact List.getElem_mem hlt)
        omega
      · simp only [hmem, if_false]
        apply ih _ _ (by omega)
        obtain ⟨x, hxd, hxo⟩ := hx
        rw [List.drop_eq_getElem_cons hlt] at hxd
        rcases List.mem_cons.mp hxd with heq | htl
        · exact absurd (by rw [List.getD_eq_getElem _ _ hlt, ← heq]; exact hxo) hmem
        · exact ⟨x, htl, hxo⟩
    · obtain ⟨x, hxd, _⟩ := hx
      rw [List.drop_eq_nil_of_le (by omega)] at hxd
      exact absurd hxd (List.not_mem_nil x)

/-- The in-place removal of lines 212-214 strictly shortens the caller's
element list whenever some desired element is already present in the
original. -/
theorem removeMatchedLoop_length_lt (original elements : List String)
    (hx : ∃ x ∈ elements, x ∈ original) :
    (removeMatchedLoop original elements).length < elements.length :=
  removeMatchedGo_length_lt original elements.length elements 0 (by omega) (by simpa using hx)

/-- Every request the delete loop issues is a DELETE. -/
theorem deleteLoop_verbs (rest : Transport) (d h : String) (p : Bool) (n : String) :
    ∀ (es : List String) (acc : Option Response),
      ∀ q ∈ (deleteLoop rest d h p n acc es).1, q.verb = Verb.DELETE := by
  intro es
  induction es with
  | nil => intro acc q hq; simp [deleteLoop] at hq
  | cons e es ih =>
    intro acc q hq
    simp only [deleteLoop] at hq
    by_cases hst : (rest (elementDeleteRequest d h p n e)).status_code ≠ 204
    · rw [if_pos hst] at hq
      rcases List.mem_singleton.mp hq with rfl
      rfl
    · rw [if_neg hst] at hq
      rcases List.mem_cons.mp hq with rfl | ht
      · rfl
      · exact ih _ q ht

/-- The delete loop's trace is the per-element DELETE requests of some
initial segment of the element list, in list order. -/
theorem deleteLoop_requests_take (rest : Transport) (d h : String) (p : Bool) (n : String) :
    ∀ (es : List String) (acc : Option Response),
      ∃ k, (deleteLoop rest d h p n acc es).1
        = (es.take k).map (elementDeleteRequest d h p n) := by
  intro es
  induction es with
  | nil => intro acc; exact ⟨0, rfl⟩
  | cons e es ih =>
    intro acc
    simp only [deleteLoop]
    by_cases hst : (rest (elementDeleteRequest d h p n e)).status_code ≠ 204
    · rw [if_pos hst]
      exact ⟨1, by simp⟩
    · rw [if_neg hst]
      obtain ⟨k, hk⟩ := ih (some (rest (elementDeleteRequest d h p n e)))
      exact ⟨k + 1, by simp [hk]⟩

/-- Short-circuit: when every element of a first segment deletes with 204
and the next element's DELETE does not return 204, the loop issues exactly
the DELETEs up to and including the failing one and returns the failing
response. -/
theorem deleteLoop_first_fail (rest : Transport) (d h : String) (p : Bool) (n : String)
    (e : String) (es₂ : List String)
    (hfail : (rest (elementDeleteRequest d h p n e)).status_code ≠ 204) :
    ∀ (es₁ : List String) (acc : Option Response),
      (∀ x ∈ es₁, (rest (elementDeleteRequest d h p n x)).status_code = 204) →
      deleteLoop rest d h p n acc (es₁ ++ e :: es₂) =
        ((es₁ ++ [e]).map (elementDeleteRequest d h p n),
         some (rest (elementDeleteRequest d h p n e))) := by
  intro es₁
  induction es₁ with
  | nil =>
    intro acc _
    simp only [List.nil_append, deleteLoop]
    rw [if_pos hfail]
    simp
  | cons x es₁ ih =>
    intro acc hok
    have hx : (rest (elementDeleteRequest d h p n x)).status_code = 204 :=
      hok x (List.mem_cons_self x es₁)
    simp only [List.cons_append, deleteLoop]
    rw [if_neg (by simp [hx])]
    simp only [List.append_eq]
    rw [ih _ (fun y hy => hok y (List.mem_cons_of_mem x hy))]
    simp

/-- When every DELETE returns 204 the loop exhausts the list; the returned
response is the last element's (or the initial accumulator on an empty
list). -/
theorem deleteLoop_all_ok (rest : Transport) (d h : String) (p : Bool) (n : String) :
    ∀ (es : List String) (acc : Option Response),
      (∀ x ∈ es, (rest (elementDeleteRequest d h p n x)).status_code = 204) →
      deleteLoop rest d h p n acc es =
        (es.map (elementDeleteRequest d h p n),
         match es.getLast? with
         | none => acc
         | some e => some (rest (elementDeleteRequest d h p n e))) := by
  intro es
  induction es with
  | nil => intro acc _; rfl
  | cons x es ih =>
    intro acc hok
    have hx : (rest (elementDeleteRequest d h p n x)).status_code = 204 :=
      hok x (List.mem_cons_self x es)
    simp only [deleteLoop]
    rw [if_neg (by simp [hx])]
    rw [ih _ (fun y hy => hok y (List.mem_cons_of_mem x hy))]
    rw [List.getLast?_cons]
    cases hl : es.getLast? with
    | none =>
      cases es with
      | nil => simp
      | cons z zs => simp at hl
    | some z => simp [hl]

/-- Extracting the head `Name` of each tuple succeeds and equals the map of
`headI` when every tuple is non-empty. -/
theorem mapM_headName (ts : List (List Member)) (hne : ∀ t ∈ ts, t ≠ []) :
    ts.mapM (fun entry => entry.head?.map Member.name)
      = some (ts.map (fun t => t.headI.name)) := by
  induction ts with
  | nil => rfl
  | cons t ts ih =>
    have ht : t ≠ [] := hne t (List.mem_cons_self t ts)
    cases t with
    | nil => exact absurd rfl ht
    | cons a t' =>
      rw [List.mapM_cons, ih (fun x hx => hne x (List.mem_cons_of_mem _ hx))]
      simp [List.headI]

/-- Unfolding of `update_static_subset` once the fetched original is known:
the caller's element list is replaced by the output of the removal loop,
the delete helper runs on `elements_to_be_deleted`, and the final PATCH is
issued only on a 204 delete phase. -/
theorem update_static_subset_cases (rest : Transport) (s : Subset) (priv : Bool) (orig : Subset)
    (hget : (get rest s.name s.dimension_name (some s.hierarchy_name) priv).2 = some orig) :
    update_static_subset rest s priv =
      (match (staticDelPair rest s orig priv).2 with
       | none =>
         some ⟨getRequest s.name s.dimension_name (some s.hierarchy_name) priv
                 :: (staticDelPair rest s orig priv).1,
               none, { s with elements := removeMatchedLoop orig.elements s.elements }⟩
       | some response =>
         if response.status_code ≠ 204 then
           some ⟨getRequest s.name s.dimension_name (some s.hierarchy_name) priv
                   :: (staticDelPair rest s orig priv).1,
                 some response,
                 { s with elements := removeMatchedLoop orig.elements s.elements }⟩
         else
           some ⟨getRequest s.name s.dimension_name (some s.hierarchy_name) priv
                   :: (staticDelPair rest s orig priv).1
                   ++ [⟨Verb.PATCH,
                        update_static_patch_url s.dimension_name s.hierarchy_name priv s.name,
                        Payload.subsetBody (Subset.body
                          { s with elements := removeMatchedLoop orig.elements s.elements })⟩],
                 some (rest ⟨Verb.PATCH,
                        update_static_patch_url s.dimension_name s.hierarchy_name priv s.name,
                        Payload.subsetBody (Subset.body
                          { s with elements := removeMatchedLoop orig.elements s.elements })⟩),
                 { s with elements := removeMatchedLoop orig.elements s.elements }⟩) := by
  simp only [update_static_subset, hget]
  rfl

/-! Claim theorems. -/

/-- C1.  Claimed: with server-side original elements {A,B,C} and desired
elements {B,C,D}, the delete phase issues exactly one DELETE (for A) and
the caller's list is reduced to [D].  The code does not do this: the loop
of lines 212-214 removes elements from `subset.elements` while iterating
over it, so after removing B it skips C; the caller's list ends as [C, D],
the delete phase issues two DELETEs (for A and for B — a desired element!),
and the final PATCH body carries elements [C, D].  This theorem evaluates
`update_static_subset` at that failing input and exhibits the full actual
behavior. -/
theorem update_static_subset_abc_bcd_actual :
    update_static_subset restABC desiredBCD false =
      some ⟨[getRequest "S" "D" (some "D") false,
             elementDeleteRequest "D" "D" false "S" "A",
             elementDeleteRequest "D" "D" false "S" "B",
             ⟨Verb.PATCH, update_static_patch_url "D" "D" false "S",
              Payload.subsetBody ⟨"S", ["C", "D"], none⟩⟩],
            some ⟨200, none, []⟩,
            ⟨"S", "D", some "D", true, ["C", "D"], ""⟩⟩ := by
  decide

/-- C2.  Claimed: with nothing to delete, no DELETE is issued, the response
consumed after the delete phase is still defined, and the final PATCH is
still issued.  The code does not do this: with an empty
`elements_to_be_deleted` the loop of `delete_elements_from_static_subset`
never runs and line 179 returns the never-assigned local `response`
(an `UnboundLocalError`, modelled by the `none` response); no PATCH is
issued.  This theorem evaluates `update_static_subset` at such an input
(server elements empty, desired [D]): the only request is the GET, the
returned response is the unbound-variable crash, and no PATCH happens. -/
theorem update_static_subset_empty_delete_crash :
    update_static_subset restEmpty desiredD false =
      some ⟨[getRequest "S" "D" (some "D") false], none, desiredD⟩ := by
  decide

/-- C3.  The static-update delete phase: (1) as soon as one per-element
DELETE returns a status other than 204 — after a first segment of 204s —
the loop stops with exactly the DELETEs up to and including the failing one
and returns that failing response; (2) when every DELETE of a non-empty
list returns 204, the loop exhausts the list and returns the last (204)
response; (3) inside `update_static_subset`, a non-204 delete-phase
response is returned to the caller as is, with no final PATCH request
issued. -/
theorem delete_phase_short_circuit (rest : Transport) (dim : String) (hier : Option String)
    (name : String) (priv : Bool) :
    (∀ (es₁ es₂ : List String) (e : String),
       (∀ x ∈ es₁,
          (rest (elementDeleteRequest dim (resolveHierarchy dim hier) priv name x)).status_code
            = 204) →
       (rest (elementDeleteRequest dim (resolveHierarchy dim hier) priv name e)).status_code
          ≠ 204 →
       delete_elements_from_static_subset rest (es₁ ++ e :: es₂) dim hier name priv =
         ((es₁ ++ [e]).map (elementDeleteRequest dim (resolveHierarchy dim hier) priv name),
          some (rest (elementDeleteRequest dim (resolveHierarchy dim hier) priv name e))))
  ∧ (∀ (es : List String) (hne : es ≠ []),
       (∀ x ∈ es,
          (rest (elementDeleteRequest dim (resolveHierarchy dim hier) priv name x)).status_code
            = 204) →
       delete_elements_from_static_subset rest es dim hier name priv =
         (es.map (elementDeleteRequest dim (resolveHierarchy dim hier) priv name),
          some (rest (elementDeleteRequest dim (resolveHierarchy dim hier) priv name
                        (es.getLast hne)))))
  ∧ (∀ (s orig : Subset) (r : Response),
       (get rest s.name s.dimension_name (some s.hierarchy_name) priv).2 = some orig →
       (staticDelPair rest s orig priv).2 = some r →
       r.status_code ≠ 204 →
       update_static_subset rest s priv =
         some ⟨getRequest s.name s.dimension_name (some s.hierarchy_name) priv
                 :: (staticDelPair rest s orig priv).1,
               some r,
               { s with elements := removeMatchedLoop orig.elements s.elements }⟩) := by
  refine ⟨?_, ?_, ?_⟩
  · intro es₁ es₂ e hok hfail
    exact deleteLoop_first_fail rest dim (resolveHierarchy dim hier) priv name e es₂
      hfail es₁ none hok
  · intro es hne hok
    rw [show delete_elements_from_static_subset rest es dim hier name priv
          = deleteLoop rest dim (resolveHierarchy dim hier) priv name none es from rfl]
    rw [deleteLoop_all_ok rest dim (resolveHierarchy dim hier) priv name es none hok]
    rw [List.getLast?_eq_getLast es hne]
  · intro s orig r hget hdel hr
    rw [update_static_subset_cases rest s priv orig hget]
    simp only [hdel]
    rw [if_pos hr]

/-- Witness for C3: concrete runs of all three parts.  With the B-DELETE
answering 200, deleting [A, B, C] stops after B and returns the 200
response; with every DELETE answering 204, deleting [A, B] exhausts the
list and returns the final 204; and a static update whose delete phase ends
in the 200 issues no PATCH and hands that 200 back. -/
theorem delete_phase_short_circuit_witness :
    delete_elements_from_static_subset restFailB ["A", "B", "C"] "D" (some "D") "S" false =
      ([elementDeleteRequest "D" "D" false "S" "A", elementDeleteRequest "D" "D" false "S" "B"],
       some ⟨200, none, []⟩)
  ∧ delete_elements_from_static_subset restABC ["A", "B"] "D" (some "D") "S" false =
      ([elementDeleteRequest "D" "D" false "S" "A", elementDeleteRequest "D" "D" false "S" "B"],
       some ⟨204, none, []⟩)
  ∧ update_static_subset restFailB desiredBCD false =
      some ⟨[getRequest "S" "D" (some "D") false, elementDeleteRequest "D" "D" false "S" "A",
             elementDeleteRequest "D" "D" false "S" "B"],
            some ⟨200, none, []⟩, ⟨"S", "D", some "D", true, ["C", "D"], ""⟩⟩ := by
  refine ⟨?_, ?_, ?_⟩
  · have h := (delete_phase_short_circuit restFailB "D" (some "D") "S" false).1
      ["A"] ["C"] "B" (by decide) (by decide)
    simpa using h
  · have h := (delete_phase_short_circuit restABC "D" (some "D") "S" false).2.1
      ["A", "B"] (by decide) (by decide)
    simpa using h
  · have h := (delete_phase_short_circuit restFailB "D" (some "D") "S" false).2.2
      desiredBCD origABC ⟨200, none, []⟩ (by decide) (by decide) (by decide)
    simpa using h

/-- C4.  `get_element_names` returns the fetched subset's `elements`
directly when it is static; when it is dynamic it returns exactly the
`Name` of the first member of each tuple the MDX resolver produces for
`subset.expression`, in resolver order (assuming, as the code does, that no
tuple is empty). -/
theorem get_element_names_spec (rest : Transport) (resolver : String → List (List Member))
    (dim hier name : String) (priv : Bool) (subset : Subset)
    (hjson : (get rest name dim (some hier) priv).2 = some subset)
    (hne : ∀ t ∈ resolver subset.expression, t ≠ []) :
    get_element_names rest resolver dim hier name priv =
      some (if subset.is_static then subset.elements
            else (resolver subset.expression).map (fun t => t.headI.name)) := by
  simp only [get_element_names, hjson]
  cases hsb : subset.is_static
  · simp only [hsb, Bool.false_eq_true, if_false]
    exact mapM_headName _ hne
  · simp [hsb]

/-- Witness for C4: a dynamic subset resolved to tuples [[E1], [E2]] yields
["E1", "E2"]; a static subset with elements [A, B, C] yields them
directly. -/
theorem get_element_names_spec_witness :
    get_element_names restDyn resolverTwo "D" "D" "S" false = some ["E1", "E2"]
  ∧ get_element_names restABC resolverTwo "D" "D" "S" false = some ["A", "B", "C"] := by
  constructor
  · have h := get_element_names_spec restDyn resolverTwo "D" "D" "S" false dynSubset
      (by decide) (by decide)
    simpa using h
  · have h := get_element_names_spec restABC resolverTwo "D" "D" "S" false origABC
      (by decide) (by decide)
    simpa using h

/-- C5.  Whenever the hierarchy is absent, the hierarchy used to build the
request URL is the dimension name: the explicit `resolveHierarchy` default,
the Subset object's own getter, equal request traces with `none` and with
the dimension as hierarchy for `get`, `get_all_names`, `delete`, `exists`,
`make_static` and the per-element delete helper, and — for `create` and the
dynamic branch of `update`, which take their names from the Subset object —
the URL built with the dimension in the hierarchy slot. -/
theorem hierarchy_defaults (rest : Transport) (dim name : String) (es : List String)
    (priv : Bool) (s : Subset) (hs : s.hierarchy_name_opt = none) :
    resolveHierarchy dim none = dim
  ∧ s.hierarchy_name = s.dimension_name
  ∧ (get rest name dim none priv).1 = (get rest name dim (some dim) priv).1
  ∧ (get_all_names rest dim none priv).1 = (get_all_names rest dim (some dim) priv).1
  ∧ (delete rest name dim none priv).1 = (delete rest name dim (some dim) priv).1
  ∧ (exists_ rest name dim none priv).1 = (exists_ rest name dim (some dim) priv).1
  ∧ (make_static rest name dim none priv).1 = (make_static rest name dim (some dim) priv).1
  ∧ delete_elements_from_static_subset rest es dim none name priv
      = delete_elements_from_static_subset rest es dim (some dim) name priv
  ∧ (create rest s priv).1
      = [⟨Verb.POST, create_url s.dimension_name s.dimension_name priv,
          Payload.subsetBody s.body⟩]
  ∧ (s.is_static = false →
      update rest s priv =
        some ⟨[⟨Verb.PATCH, update_url s.dimension_name s.dimension_name priv s.name,
                Payload.subsetBody s.body⟩],
              some (rest ⟨Verb.PATCH, update_url s.dimension_name s.dimension_name priv s.name,
                Payload.subsetBody s.body⟩), s⟩) := by
  have hros : resolveHierarchy dim (some dim) = dim := by
    by_cases hd : dim = "" <;> simp [resolveHierarchy, hd]
  have hgetter : s.hierarchy_name = s.dimension_name := by
    simp [Subset.hierarchy_name, hs]
  refine ⟨rfl, hgetter, ?_, ?_, ?_, ?_, ?_, ?_, ?_, ?_⟩
  · simp [get, getRequest, resolveHierarchy, hros]
  · simp [get_all_names, resolveHierarchy, hros]
  · simp [delete, resolveHierarchy, hros]
  · simp [exists_, resolveHierarchy, hros]
  · simp [make_static, resolveHierarchy, hros]
  · simp [delete_elements_from_static_subset, resolveHierarchy, hros]
  · simp [create, hgetter]
  · intro hdyn
    simp [update, hdyn, hgetter]

/-- Witness for C5: the conjunction instantiated at a subset built without
a hierarchy name. -/
theorem hierarchy_defaults_witness :
    resolveHierarchy "D" none = "D"
  ∧ sNoHier.hierarchy_name = sNoHier.dimension_name
  ∧ (get restOk "S" "D" none false).1 = (get restOk "S" "D" (some "D") false).1
  ∧ (create restOk sNoHier false).1
      = [⟨Verb.POST, create_url "D" "D" false, Payload.subsetBody sNoHier.body⟩] := by
  have h := hierarchy_defaults restOk "D" "S" [] false sNoHier rfl
  exact ⟨h.1, h.2.1, h.2.2.1, h.2.2.2.2.2.2.2.2.1⟩

/-- C7.  `update` dispatches on `is_static`: a dynamic subset gets exactly
one request, a PATCH of `subset.body` to the single-resource URL (no GET,
no DELETEs, no diffing), while a static subset is delegated wholesale to
`update_static_subset`. -/
theorem update_dispatch (rest : Transport) (s : Subset) (priv : Bool) :
    (s.is_static = false →
       update rest s priv =
         some ⟨[⟨Verb.PATCH, update_url s.dimension_name s.hierarchy_name priv s.name,
                 Payload.subsetBody s.body⟩],
               some (rest ⟨Verb.PATCH, update_url s.dimension_name s.hierarchy_name priv s.name,
                 Payload.subsetBody s.body⟩), s⟩)
  ∧ (s.is_static = true → update rest s priv = update_static_subset rest s priv) := by
  constructor
  · intro h
    simp [update, h]
  · intro h
    simp [update, h]

/-- Witness for C7: a dynamic update is the single PATCH of the subset
body; a static update equals `update_static_subset`. -/
theorem update_dispatch_witness :
    update restOk dynSubset false =
      some ⟨[⟨Verb.PATCH, update_url "D" "D" false "S",
              Payload.subsetBody ⟨"S", [], some "mdx-set"⟩⟩],
            some ⟨200, none, []⟩, dynSubset⟩
  ∧ update restABC desiredBCD false = update_static_subset restABC desiredBCD false := by
  constructor
  · have h := (update_dispatch restOk dynSubset false).1 rfl
    simpa using h
  · exact (update_dispatch restABC desiredBCD false).2 rfl

/-- C8.  `update_or_create` probes existence with the subset's (name,
dimension, hierarchy, private) key; when the probe answers true the call's
response and final subset state are those of `update` on the same subset
(with the probe request prepended to the trace), and when it answers false
they are those of `create`. -/
theorem update_or_create_delegates (rest : Transport) (s : Subset) (priv : Bool) :
    ((exists_ rest s.name s.dimension_name (some s.hierarchy_name) priv).2 = some true →
       update_or_create rest s priv =
         (update rest s priv).map (fun r =>
           ⟨(exists_ rest s.name s.dimension_name (some s.hierarchy_name) priv).1 ++ r.requests,
            r.response, r.subset⟩))
  ∧ ((exists_ rest s.name s.dimension_name (some s.hierarchy_name) priv).2 = some false →
       update_or_create rest s priv =
         some ⟨(exists_ rest s.name s.dimension_name (some s.hierarchy_name) priv).1
                 ++ (create rest s priv).1,
               some (create rest s priv).2, s⟩) := by
  constructor
  · intro h
    simp only [update_or_create, h]
  · intro h
    simp only [update_or_create, h]

/-- Witness for C8: against a transport answering 200 the probe says
true and the call performs `update`'s PATCH; against a transport answering
404 the probe says false and the call performs `create`'s POST. -/
theorem update_or_create_delegates_witness :
    update_or_create restOk dynSubset false =
      some ⟨[⟨Verb.GET, exists_url "D" "D" false "S", Payload.empty⟩,
             ⟨Verb.PATCH, update_url "D" "D" false "S",
              Payload.subsetBody ⟨"S", [], some "mdx-set"⟩⟩],
            some ⟨200, none, []⟩, dynSubset⟩
  ∧ update_or_create rest404 dynSubset false =
      some ⟨[⟨Verb.GET, exists_url "D" "D" false "S", Payload.empty⟩,
             ⟨Verb.POST, create_url "D" "D" false,
              Payload.subsetBody ⟨"S", [], some "mdx-set"⟩⟩],
            some ⟨404, none, []⟩, dynSubset⟩ := by
  constructor
  · have h := (update_or_create_delegates restOk dynSubset false).1 (by decide)
    simpa using h
  · have h := (update_or_create_delegates rest404 dynSubset false).2 (by decide)
    simpa using h

/-- C9.  When the delete phase of `update_static_subset` fails (the
response handed back is not a 204), the caller-supplied subset has already
been mutated: its element list in the result is exactly the output of the
in-place removal loop — run before any DELETE was issued — and it is
strictly shorter than the caller's original list whenever some desired
element was present in the server-side original; nothing rolls this back on
the error path. -/
theorem static_update_error_keeps_mutation (rest : Transport) (s : Subset) (priv : Bool)
    (orig : Subset) (res : StaticUpdateResult) (r : Response)
    (hget : (get rest s.name s.dimension_name (some s.hierarchy_name) priv).2 = some orig)
    (hmut : ∃ x ∈ s.elements, x ∈ orig.elements)
    (hres : update_static_subset rest s priv = some res)
    (hr : res.response = some r)
    (hfail : r.status_code ≠ 204) :
    res.subset.elements = removeMatchedLoop orig.elements s.elements
  ∧ res.subset.elements.length < s.elements.length := by
  rw [update_static_subset_cases rest s priv orig hget] at hres
  have hsub : res.subset = { s with elements := removeMatchedLoop orig.elements s.elements } := by
    cases hd : (staticDelPair rest s orig priv).2 with
    | none =>
      simp only [hd] at hres
      exact (Option.some.inj hres).symm ▸ rfl
    | some resp =>
      simp only [hd] at hres
      by_cases hst : resp.status_code ≠ 204
      · rw [if_pos hst] at hres
        exact (Option.some.inj hres).symm ▸ rfl
      · rw [if_neg hst] at hres
        exact (Option.some.inj hres).symm ▸ rfl
  constructor
  · rw [hsub]
  · rw [hsub]
    exact removeMatchedLoop_length_lt _ _ hmut

/-- Witness for C9: with the A-DELETE failing with 500, the static update
of desired [B, C, D] against original [A, B, C] hands back the 500 while
the caller's list is already reduced (here to [C, D], two of three
elements). -/
theorem static_update_error_keeps_mutation_witness :
    (⟨"S", "D", some "D", true, ["C", "D"], ""⟩ : Subset).elements
        = removeMatchedLoop origABC.elements desiredBCD.elements
  ∧ (⟨"S", "D", some "D", true, ["C", "D"], ""⟩ : Subset).elements.length
        < desiredBCD.elements.length := by
  have h := static_update_error_keeps_mutation restFailA desiredBCD false origABC
    ⟨[getRequest "S" "D" (some "D") false, elementDeleteRequest "D" "D" false "S" "A"],
     some ⟨500, none, []⟩, ⟨"S", "D", some "D", true, ["C", "D"], ""⟩⟩
    ⟨500, none, []⟩ (by decide) (by decide) (by decide) (by decide) (by decide)
  exact h

/-- C10.  The per-element DELETE requests of `update_static_subset` follow
the order of the server-side original's element list: the computed
`elements_to_be_deleted` is a sublist of (hence ordered like)
`original_subset.elements`, and the DELETE requests appearing in the
result's sequential trace are exactly the per-element requests of an
initial segment of that list, in that order. -/
theorem delete_requests_follow_original_order (rest : Transport) (s : Subset) (priv : Bool)
    (orig : Subset) (res : StaticUpdateResult)
    (hget : (get rest s.name s.dimension_name (some s.hierarchy_name) priv).2 = some orig)
    (hres : update_static_subset rest s priv = some res) :
    List.Sublist
        (elements_to_be_deleted orig.elements (removeMatchedLoop orig.elements s.elements))
        orig.elements
  ∧ ∃ k, res.requests.filter (fun q => decide (q.verb = Verb.DELETE))
        = ((elements_to_be_deleted orig.elements
              (removeMatchedLoop orig.elements s.elements)).take k).map
            (elementDeleteRequest s.dimension_name s.hierarchy_name priv s.name) := by
  constructor
  · exact List.filter_sublist _
  · have hdel1 : (staticDelPair rest s orig priv).1
        = (deleteLoop rest s.dimension_name
            (resolveHierarchy s.dimension_name (some s.hierarchy_name)) priv s.name none
            (elements_to_be_deleted orig.elements
              (removeMatchedLoop orig.elements s.elements))).1 := rfl
    have hverbs : ∀ q ∈ (staticDelPair rest s orig priv).1, q.verb = Verb.DELETE := by
      rw [hdel1]
      exact deleteLoop_verbs rest s.dimension_name _ priv s.name _ none
    have hfiltered : (staticDelPair rest s orig priv).1.filter
        (fun q => decide (q.verb = Verb.DELETE)) = (staticDelPair rest s orig priv).1 :=
      List.filter_eq_self.mpr (fun q hq => by simp [hverbs q hq])
    obtain ⟨k, hk⟩ := deleteLoop_requests_take rest s.dimension_name
      (resolveHierarchy s.dimension_name (some s.hierarchy_name)) priv s.name
      (elements_to_be_deleted orig.elements (removeMatchedLoop orig.elements s.elements)) none
    rw [resolveHierarchy_getter] at hk
    refine ⟨k, ?_⟩
    have hreq : res.requests.filter (fun q => decide (q.verb = Verb.DELETE))
        = (staticDelPair rest s orig priv).1 := by
      rw [update_static_subset_cases rest s priv orig hget] at hres
      cases hd : (staticDelPair rest s orig priv).2 with
      | none =>
        simp only [hd] at hres
        rw [← Option.some.inj hres]
        simp only [List.filter_cons]
        rw [show (decide ((getRequest s.name s.dimension_name (some s.hierarchy_name)
            priv).verb = Verb.DELETE)) = false from rfl]
        simpa using hfiltered
      | some resp =>
        simp only [hd] at hres
        by_cases hst : resp.status_code ≠ 204
        · rw [if_pos hst] at hres
          rw [← Option.some.inj hres]
          simp only [List.filter_cons]
          rw [show (decide ((getRequest s.name s.dimension_name (some s.hierarchy_name)
              priv).verb = Verb.DELETE)) = false from rfl]
          simpa using hfiltered
        · rw [if_neg hst] at hres
          rw [← Option.some.inj hres]
          simp only [List.cons_append, List.filter_cons, List.filter_append]
          rw [show (decide ((getRequest s.name s.dimension_name (some s.hierarchy_name)
              priv).verb = Verb.DELETE)) = false from rfl]
          simp [hfiltered]
    rw [resolveHierarchy_getter] at hdel1
    rw [hreq, hdel1]
    exact hk

/-- Witness for C10: in the all-204 run on original [A, B, C] and desired
[B, C, D], the DELETE requests of the trace are those of the full
`elements_to_be_deleted` list [A, B], in original order. -/
theorem delete_requests_follow_original_order_witness :
    List.Sublist
        (elements_to_be_deleted origABC.elements
          (removeMatchedLoop origABC.elements desiredBCD.elements))
        origABC.elements
  ∧ ∃ k,
      (⟨[getRequest "S" "D" (some "D") false,
         elementDeleteRequest "D" "D" false "S" "A",
         elementDeleteRequest "D" "D" false "S" "B",
         ⟨Verb.PATCH, update_static_patch_url "D" "D" false "S",
          Payload.subsetBody ⟨"S", ["C", "D"], none⟩⟩],
        some ⟨200, none, []⟩,
        ⟨"S", "D", some "D", true, ["C", "D"], ""⟩⟩ : StaticUpdateResult).requests.filter
          (fun q => decide (q.verb = Verb.DELETE))
        = ((elements_to_be_deleted origABC.elements
              (removeMatchedLoop origABC.elements desiredBCD.elements)).take k).map
            (elementDeleteRequest "D" "D" false "S") := by
  exact delete_requests_follow_original_order restABC desiredBCD false origABC
    ⟨[getRequest "S" "D" (some "D") false,
      elementDeleteRequest "D" "D" false "S" "A",
      elementDeleteRequest "D" "D" false "S" "B",
      ⟨Verb.PATCH, update_static_patch_url "D" "D" false "S",
       Payload.subsetBody ⟨"S", ["C", "D"], none⟩⟩],
     some ⟨200, none, []⟩,
     ⟨"S", "D", some "D", true, ["C", "D"], ""⟩⟩ (by decide) (by decide)

/-- C6.  For both values of the `private` flag, the collection segment
embedded in every operation's URL is exactly "PrivateSubsets" when private
is true and "Subsets" when it is false — consistently across `create`,
`get`, `get_all_names`, `update` (dynamic PATCH and final static PATCH),
`make_static`, `delete`, `exists` and the per-element delete helper. -/
theorem collection_segment_by_private (priv : Bool) (dim hier name elem : String) :
    create_url dim hier priv
      = "/api/v1/Dimensions('" ++ escapeArg dim ++ "')/Hierarchies('" ++ escapeArg hier
          ++ "')/" ++ (if priv then "PrivateSubsets" else "Subsets")
  ∧ get_url dim hier priv name
      = "/api/v1/Dimensions('" ++ escapeArg dim ++ "')/Hierarchies('" ++ escapeArg hier
          ++ "')/" ++ (if priv then "PrivateSubsets" else "Subsets")
          ++ "('" ++ escapeArg name
          ++ "')?$expand=Hierarchy($select=Dimension,Name),Elements($select=Name)&$select=*,Alias"
  ∧ get_all_names_url dim hier priv
      = "/api/v1/Dimensions('" ++ escapeArg dim ++ "')/Hierarchies('" ++ escapeArg hier
          ++ "')/" ++ (if priv then "PrivateSubsets" else "Subsets") ++ "?$select=Name"
  ∧ update_url dim hier priv name
      = "/api/v1/Dimensions('" ++ escapeArg dim ++ "')/Hierarchies('" ++ escapeArg hier
          ++ "')/" ++ (if priv then "PrivateSubsets" else "Subsets")
          ++ "('" ++ escapeArg name ++ "')"
  ∧ make_static_url dim hier priv name
      = "/api/v1/Dimensions('" ++ escapeArg dim ++ "')/Hierarchies('" ++ escapeArg hier
          ++ "')/" ++ (if priv then "PrivateSubsets" else "Subsets")
          ++ "('" ++ escapeArg name ++ "')/tm1.SaveAs"
  ∧ delete_url dim hier priv name
      = "/api/v1/Dimensions('" ++ escapeArg dim ++ "')/Hierarchies('" ++ escapeArg hier
          ++ "')/" ++ (if priv then "PrivateSubsets" else "Subsets")
          ++ "('" ++ escapeArg name ++ "')"
  ∧ exists_url dim hier priv name
      = "/api/v1/Dimensions('" ++ escapeArg dim ++ "')/Hierarchies('" ++ escapeArg hier
          ++ "')/" ++ (if priv then "PrivateSubsets" else "Subsets")
          ++ "('" ++ escapeArg name ++ "')"
  ∧ element_delete_url dim hier priv name elem
      = "/api/v1/Dimensions('" ++ escapeArg dim ++ "')/Hierarchies('" ++ escapeArg hier
          ++ "')/" ++ (if priv then "PrivateSubsets" else "Subsets")
          ++ "('" ++ escapeArg name ++ "')/Elements('" ++ escapeArg elem ++ "')"
  ∧ update_static_patch_url dim hier priv name
      = "/api/v1/Dimensions('" ++ escapeArg dim ++ "')/Hierarchies('" ++ escapeArg hier
          ++ "')/" ++ (if priv then "PrivateSubsets" else "Subsets")
          ++ "('" ++ escapeArg name ++ "')" := by
  have hP : escapeArg "PrivateSubsets" = "PrivateSubsets" := by decide
  have hS : escapeArg "Subsets" = "Subsets" := by decide
  cases priv <;>
    simp [create_url, get_url, get_all_names_url, update_url, make_static_url,
      delete_url, exists_url, element_delete_url, update_static_patch_url, hP, hS]

end SubsetService
